import Mathlib

/-!
Verification development for the one-wire home-automation core
(`src/src/onewire.rs`).  The Rust code is shallowly embedded:

* `Instant` timestamps and `Duration`s are modelled as `Nat` values in
  milliseconds; `Instant.elapsed()` at current time `now` is `now - t`.
  The `f32`-second constants of the source become their exact
  millisecond values (all are integral).
* Hardware bytes are `Nat` values `< 256`; `bit = 0` asserts "on" for
  the relay boards, exactly as in the source.
* Rust `str` operations (`starts_with`, `contains`, `split(":")`,
  `parse::<usize>`) are re-implemented over `List Char` by structural
  recursion so that every definition is kernel-computable.
* Fallible operations (file I/O, panics) are made explicit: I/O
  outcomes are boolean/sum parameters, and a Rust panic (index out of
  bounds, `unwrap` on `None`) is `Except.error`.
* Log statements, channel sends and spawned threads become explicit
  `Effect`/task lists; fields of the source structs that only hold
  channel handles or names irrelevant to the claims are omitted.
-/

namespace Hard

/-! ## Constants (from the top of onewire.rs), in milliseconds -/

def DS2408_INITIAL_STATE : Nat := 0xff

def MIN_TOGGLE_DELAY_SECS : Nat := 1000

def DEFAULT_PIR_HOLD_SECS : Nat := 120000

def DEFAULT_SWITCH_HOLD_SECS : Nat := 3600000

def DEFAULT_PIR_PROLONG_SECS : Nat := 900000

def ENTRY_LIGHT_PROLONG_SECS : Nat := 600000

/-! ## Kernel-computable replacements for the Rust `str` operations -/

/-- Rust `str::starts_with` on character lists (pattern is the second list). -/
def beginsWithChars : List Char → List Char → Bool
  | _, [] => true
  | [], _ :: _ => false
  | c :: cs, p :: ps => c == p && beginsWithChars cs ps

/-- Rust `str::starts_with`. -/
def beginsWith (s pat : String) : Bool := beginsWithChars s.data pat.data

/-- Rust `str::contains` (substring test) on character lists. -/
def containsChars : List Char → List Char → Bool
  | [], p => p.isEmpty
  | c :: cs, p => beginsWithChars (c :: cs) p || containsChars cs p

/-- Rust `str::contains` (substring test). -/
def strContains (s pat : String) : Bool := containsChars s.data pat.data

/-- Rust `str::split(sep)` for a one-character separator: the resulting
chunks, in order (an empty input yields one empty chunk, as in Rust). -/
def splitChar (sep : Char) : List Char → List (List Char)
  | [] => [[]]
  | c :: cs =>
    if c == sep then [] :: splitChar sep cs
    else
      match splitChar sep cs with
      | [] => [[c]]
      | h :: t => (c :: h) :: t

def digitVal (c : Char) : Option Nat :=
  if c.isDigit then some (c.toNat - 48) else none

def charsToNatCore : List Char → Nat → Option Nat
  | [], acc => some acc
  | c :: cs, acc =>
    match digitVal c with
    | some d => charsToNatCore cs (acc * 10 + d)
    | none => none

/-- Rust `str::parse::<usize>()`: an optional leading `+` followed by
one or more decimal digits. -/
def charsToNat : List Char → Option Nat
  | [] => none
  | '+' :: cs =>
    match cs with
    | [] => none
    | c :: cs2 => charsToNatCore (c :: cs2) 0
  | c :: cs => charsToNatCore (c :: cs) 0

/-- The `<param>` of a `name:<param>` tag: `tag.split(":")` followed by
`v.get(1)`, as done throughout onewire.rs. -/
def paramAfterColon (tag : String) : Option (List Char) :=
  (splitChar ':' tag.data).get? 1

/-! ## Byte helpers (u8 values as `Nat < 256`) -/

/-- `new_state & !(1 << i)` on a u8. -/
def clearBit (b i : Nat) : Nat := b &&& (0xff ^^^ (1 <<< i))

/-- `new_state | (1 << i)` on a u8. -/
def setBit (b i : Nat) : Nat := b ||| (1 <<< i)

/-- `new_state ^ (1 << i)` on a u8. -/
def flipBit (b i : Nat) : Nat := b ^^^ (1 <<< i)

/-! ## Tasks and outbound effects -/

inductive TaskCommand where
  | TurnOnProlong
  | TurnOnProlongNight
  | TurnOff
deriving DecidableEq

structure OneWireTask where
  command : TaskCommand
  id_relay : Option Int
  tag_group : Option String
  duration : Option Nat
deriving DecidableEq

/-- Observable side effects emitted towards the collaborators
(database, LCD, beeper, shell).  The shell command is recorded with the
raw script chunk plus the substitution inputs; the `%name%`/`%state%`
substitution itself is a string rewrite with no further logic. -/
inductive Effect where
  | updateSensorState (isOn : Bool) (id : Int)
  | shellCmd (cmd : List Char) (sensorName : String) (isOn : Bool)
  | beepDoorBell
  | beepConfirmation
  | lcdSetCesspoolLevel (count : Nat)
  | dbUpdateCesspoolLevel (pct : Nat)
deriving DecidableEq

/-! ## Relay model and the per-relay transitions of `OneWire::worker` -/

structure Relay where
  id_relay : Int
  name : String
  tags : List String
  pir_exclude : Bool
  pir_hold_secs : Nat
  switch_hold_secs : Nat
  pir_all_day : Bool
  override_mode : Bool
  last_toggled : Option Nat
  stop_after : Option Nat
deriving DecidableEq

/-- The byte state of one relay board: the staged output (`new_value`),
the last written byte (`last_value`) and whether the output file is
open. -/
structure RelayBoardState where
  new_value : Option Nat
  last_value : Option Nat
  fileOpen : Bool
deriving DecidableEq

/-- Flip-flop protection as computed in the worker: blocked when the
relay was toggled less than `MIN_TOGGLE_DELAY_SECS` ago. -/
def flipflopBlocked (now : Nat) (r : Relay) : Bool :=
  match r.last_toggled with
  | some toggled => decide (now - toggled < MIN_TOGGLE_DELAY_SECS)
  | none => false

/-- Base byte for computing a new output: the staged value if present,
else the last written value, else `DS2408_INITIAL_STATE`. -/
def baseState (rb : RelayBoardState) : Nat :=
  match rb.new_value with
  | some val => val
  | none => rb.last_value.getD DS2408_INITIAL_STATE

/-- `elapsed` for an optional toggle timestamp:
`relay.last_toggled.unwrap_or(Instant::now()).elapsed()`. -/
def toggledElapsed (now : Nat) (r : Relay) : Nat :=
  match r.last_toggled with
  | some toggled => now - toggled
  | none => 0

/-- The `"PIR_Trigger"` arm of the sensor-event relay transition
(onewire.rs, `OneWire::worker`, lines 1251–1308): turn on an off relay
(unless flip-flop blocked) or prolong an already-on / override one. -/
def pirTransition (now : Nat) (night sensorOn : Bool) (i : Nat) (r : Relay) (rb : RelayBoardState) :
    Relay × RelayBoardState :=
  let ff := flipflopBlocked now r
  let new_state := baseState rb
  if (r.override_mode && sensorOn) || (!r.pir_exclude && sensorOn && (night || r.pir_all_day)) then
    if !r.override_mode && new_state.testBit i then
      -- bit set: relay is off
      if ff then (r, rb)
      else ({ r with stop_after := some r.pir_hold_secs },
            { rb with new_value := some (clearBit new_state i) })
    else
      -- prolonging
      let elapsed := toggledElapsed now r
      if r.override_mode then
        let prolong_secs :=
          if DEFAULT_PIR_PROLONG_SECS > r.pir_hold_secs then DEFAULT_PIR_PROLONG_SECS
          else r.pir_hold_secs
        if r.switch_hold_secs > prolong_secs &&
            decide (elapsed > r.switch_hold_secs - prolong_secs) then
          ({ r with stop_after := some (elapsed + prolong_secs) }, rb)
        else (r, rb)
      else
        ({ r with stop_after := some (elapsed + r.pir_hold_secs) }, rb)
  else (r, rb)

/-- The `"Switch"` arm of the sensor-event relay transition
(onewire.rs lines 1309–1337): XOR the bit unless flip-flop blocked. -/
def switchTransition (now : Nat) (i : Nat) (r : Relay) (rb : RelayBoardState) :
    Relay × RelayBoardState :=
  let ff := flipflopBlocked now r
  let new_state := baseState rb
  if ff then (r, rb)
  else ({ r with override_mode := true, stop_after := some r.switch_hold_secs },
        { rb with new_value := some (flipBit new_state i) })

/-- Application of one pending `OneWireTask` to a matching relay at bit
`i` (onewire.rs lines 1684–1832).  The boolean result records whether
an `IncrementRelayCounter` intent was emitted. -/
def applyTask (now i : Nat) (command : TaskCommand) (dur : Option Nat) (r : Relay)
    (rb : RelayBoardState) : Relay × RelayBoardState × Bool :=
  let ff := flipflopBlocked now r
  let new_state := baseState rb
  match command with
  | .TurnOnProlong =>
    let d :=
      match dur with
      | some d => d
      | none =>
        if r.switch_hold_secs ≠ DEFAULT_SWITCH_HOLD_SECS then r.switch_hold_secs
        else r.pir_hold_secs
    if !r.override_mode && new_state.testBit i then
      -- bit set: relay is off
      if ff then (r, rb, false)
      else ({ r with last_toggled := some now, stop_after := some d },
            { rb with new_value := some (clearBit new_state i) }, false)
    else
      -- prolonging
      let elapsed := toggledElapsed now r
      if r.override_mode then
        if r.switch_hold_secs > DEFAULT_PIR_PROLONG_SECS &&
            decide (elapsed > r.switch_hold_secs - DEFAULT_PIR_PROLONG_SECS) then
          ({ r with stop_after := some (elapsed + DEFAULT_PIR_PROLONG_SECS) }, rb, false)
        else (r, rb, false)
      else ({ r with stop_after := some (elapsed + d) }, rb, false)
  | .TurnOff =>
    if !new_state.testBit i then
      -- bit clear: relay is on
      if ff then (r, rb, false)
      else ({ r with last_toggled := some now, stop_after := none, override_mode := false },
            { rb with new_value := some (setBit new_state i) }, true)
    else (r, rb, false)
  | .TurnOnProlongNight => (r, rb, false)

/-- One relay of the auto turn-off sweep (onewire.rs lines 1853–1910).
The boolean result records whether an `IncrementRelayCounter` intent was
emitted. -/
def sweepRelay (now i : Nat) (r : Relay) (rb : RelayBoardState) :
    Relay × RelayBoardState × Bool :=
  let new_state := baseState rb
  match r.last_toggled, r.stop_after with
  | some toggled, some stop_after =>
    if now - toggled > MIN_TOGGLE_DELAY_SECS ∧ now - toggled > stop_after then
      if !new_state.testBit i then
        -- bit clear: relay is on, turn it off
        ({ r with last_toggled := some now, stop_after := none, override_mode := false },
         { rb with new_value := some (setBit new_state i) }, true)
      else
        ({ r with last_toggled := none, stop_after := none, override_mode := false }, rb, false)
    else (r, rb, false)
  | _, _ => (r, rb, false)

/-- One relay of the `all_night` forced update on a day/night transition
(onewire.rs lines 1605–1652); applied when the relay carries the
`all_night` tag.  The boolean result records the counter intent. -/
def allNightUpdate (now : Nat) (night : Bool) (i : Nat) (r : Relay) (rb : RelayBoardState) :
    Relay × RelayBoardState × Bool :=
  if r.tags.contains "all_night" then
    let new_state := baseState rb
    let forced := if night then clearBit new_state i else setBit new_state i
    ({ r with last_toggled := some now, stop_after := none },
     { rb with new_value := some forced }, true)
  else (r, rb, false)

/-- `RelayBoard::save_state` (onewire.rs lines 211–253): lazily (re)open
the output file, and if a staged value is present attempt exactly one
write of it; on success the staged value becomes `last_value` and the
stage is cleared.  `openOk`/`writeOk` model the I/O outcomes; the
boolean result records whether a hardware write was performed. -/
def save_state (rb : RelayBoardState) (openOk writeOk : Bool) : RelayBoardState × Bool :=
  let rb := if rb.fileOpen then rb else { rb with fileOpen := openOk }
  if rb.fileOpen then
    match rb.new_value with
    | some val =>
      if writeOk then ({ rb with last_value := some val, new_value := none }, true)
      else (rb, true)
    | none => (rb, false)
  else (rb, false)

/-! ## Sensor boards and `SensorBoard::read_state` -/

/-- The parts of `SensorBoard` touched by `read_state`. -/
structure SensorBoardSt where
  last_value : Option Nat
  fileOpen : Bool
deriving DecidableEq

/-- Outcome of the raw one-byte `read_exact` on the state file. -/
inductive ReadOutcome where
  | ioError
  | byte (b : Nat)
deriving DecidableEq

/-- `SensorBoard::read_state` (onewire.rs lines 104–158): lazily (re)open
the file, read one byte, and accept it only if it is in the fixed
allow-list `{0x5a, 0x4b, 0x1e, 0x0f}`; anything else (and any I/O
failure) is logged and yields `None`. -/
def read_state (sb : SensorBoardSt) (openOk : Bool) (r : ReadOutcome) :
    SensorBoardSt × Option Nat :=
  let sb := if sb.fileOpen then sb else { sb with fileOpen := openOk }
  if sb.fileOpen then
    match r with
    | .ioError => (sb, none)
    | .byte b =>
      if b == 0x5a || b == 0x4b || b == 0x1e || b == 0x0f then (sb, some b)
      else (sb, none)
  else (sb, none)

/-! ## Exact binary32 (f32) arithmetic for the percentage computation -/

/-- Strict application for `Nat`: forces the argument to a literal
before substituting it, keeping kernel evaluation of the definitions
below linear (call-by-name would re-evaluate shared subterms). -/
def forceNat {α : Type} : Nat → (Nat → α) → α
  | 0, f => f 0
  | n + 1, f => f (n + 1)

/-- Floor of the base-2 logarithm by binary descent, for `n < 2^128`
(every value this file takes a logarithm of is below `2^96`). -/
def natLog2 (n : Nat) : Nat :=
  forceNat (if n < 18446744073709551616 then 0 else 64) fun a6 =>
  forceNat (n >>> a6) fun n6 =>
  forceNat (if n6 < 4294967296 then 0 else 32) fun a5 =>
  forceNat (n6 >>> a5) fun n5 =>
  forceNat (if n5 < 65536 then 0 else 16) fun a4 =>
  forceNat (n5 >>> a4) fun n4 =>
  forceNat (if n4 < 256 then 0 else 8) fun a3 =>
  forceNat (n4 >>> a3) fun n3 =>
  forceNat (if n3 < 16 then 0 else 4) fun a2 =>
  forceNat (n3 >>> a2) fun n2 =>
  forceNat (if n2 < 4 then 0 else 2) fun a1 =>
  forceNat (n2 >>> a1) fun n1 =>
  (if n1 < 2 then 0 else 1) + a1 + a2 + a3 + a4 + a5 + a6

/-- Round-to-nearest, ties-to-even, of the rational `num / den` to an
integer (`den ≠ 0`). -/
def rndRat (num den : Nat) : Nat :=
  forceNat (num / den) fun q =>
    forceNat (num % den) fun r =>
      if 2 * r < den then q
      else if den < 2 * r then q + 1
      else if q % 2 == 0 then q else q + 1

/-- The exact value of the IEEE-754 binary32 rounding (round to
nearest, ties to even) of the positive rational `p / q`, passed to the
continuation `k` as a numerator/denominator pair `m / t` (continuation
style keeps every intermediate evaluated once).  With
`L = ⌊log2(p * 2^64 / q)⌋` the exponent is `e = L - 64`, the 24-bit
significand is the correctly rounded `p/q * 2^(23-e)`, and the exact
value is `m / 2^(23-e)` (for `e ≤ 23`, i.e. `L ≤ 87`; else the value
is the integer `m * 2^(e-23)`).  Valid for magnitudes in the normal
binary32 range, which covers every value computed in this file. -/
def f32OfRatK {α : Type} (p q : Nat) (k : Nat → Nat → α) : α :=
  if p == 0 then k 0 1
  else
    forceNat (natLog2 (p * 18446744073709551616 / q)) fun L =>
      if L ≤ 87 then
        forceNat (2 ^ (87 - L)) fun t =>
          forceNat (rndRat (p * t) q) fun m => k m t
      else
        forceNat (2 ^ (L - 87)) fun t =>
          forceNat (rndRat p (q * t) * t) fun m => k m 1

/-- `((count as f32 / len as f32) * 100f32) as u8` with exact binary32
semantics: `count` and `len` are below `2^24` so their conversion to
f32 is exact; the division and the multiplication each round to
nearest-even; the `as u8` cast truncates toward zero and saturates at
255, and the `NaN` arising from `0 / 0` on an empty vector becomes 0,
as in Rust. -/
def f32Percentage (count len : Nat) : Nat :=
  if len == 0 then 0
  else
    f32OfRatK count len fun dn dd =>
      f32OfRatK (100 * dn) dd fun mn md =>
        forceNat (mn / md) fun v => if 255 < v then 255 else v

/-- Exhaustive check that `f32Percentage` stays within one below the
exact truncated percentage for all `count ≤ len ≤ L`. -/
def pctBoundCheck (L : Nat) : Bool :=
  (List.range (L + 1)).all fun len =>
    (List.range (len + 1)).all fun count =>
      decide (f32Percentage count len ≤ 100 * count / len) &&
      decide (100 * count / len ≤ f32Percentage count len + 1)

theorem pctBoundCheck_spec (L : Nat) (h : pctBoundCheck L = true) :
    ∀ len, len ≤ L → ∀ count, count ≤ len →
      f32Percentage count len ≤ 100 * count / len ∧
      100 * count / len ≤ f32Percentage count len + 1 := by
  intro len hlen count hcount
  have h1 := List.all_eq_true.mp h len (List.mem_range.mpr (by omega))
  have h2 := List.all_eq_true.mp h1 count (List.mem_range.mpr (by omega))
  simpa [Bool.and_eq_true, decide_eq_true_eq] using h2

/-! ## Cesspool aggregator -/

structure CesspoolLevel where
  level : List (Option Bool)
deriving DecidableEq

/-- `CesspoolLevel::got_all_sensors`: no probe is still `None`. -/
def CesspoolLevel.got_all_sensors (c : CesspoolLevel) : Bool :=
  (c.level.filter (fun l => l.isNone)).length == 0

/-- `CesspoolLevel::get_level_lcd`: number of probes reporting `true`. -/
def CesspoolLevel.get_level_lcd (c : CesspoolLevel) : Nat :=
  ((c.level.filterMap id).filter (fun x => x == true)).length

/-- `CesspoolLevel::get_level_percentage` (onewire.rs lines 585-589):
`((true_count as f32 / len as f32) * 100f32) as u8`, with exact
binary32 semantics via `f32Percentage`. -/
def CesspoolLevel.get_level_percentage (c : CesspoolLevel) : Nat :=
  f32Percentage ((c.level.filterMap id).filter (fun x => x == true)).length c.level.length

/-- Modelled from the spec ("percentage() = round(occupied_count / len * 100)"):
round-to-nearest (half away from zero) percentage, for comparison with
the truncating computation of the source. -/
def specRoundPercentage (c : CesspoolLevel) : Nat :=
  (200 * ((c.level.filterMap id).filter (fun x => x == true)).length + c.level.length) /
    (2 * c.level.length)

/-! ## StateMachine and its hooks -/

/-- The parts of `StateMachine` that the hooks read or write.  Channel
handles, the name and the unused `alarm_armed` flag are omitted; the
presence of the optional `ethlcd` beeper is kept as a boolean. -/
structure SM where
  bedroom_mode : Bool
  wicket_gate_started : Option Nat
  wicket_gate_delay : Option Nat
  wicket_gate_relays : List Int
  ethlcd : Bool
  cesspool_level : CesspoolLevel
deriving DecidableEq

/-- The bedroom-mode tag loop of `sensor_hook` (onewire.rs lines
659-678): returns the updated `bedroom_mode` and an early hook result
(`some r` models `return r`).  A `bedroom_disable` tag clears the mode
and keeps scanning; a `bedroom_enable` tag returns immediately. -/
def bedroomScan (mode : Bool) : List String → Bool × Option Bool
  | [] => (mode, none)
  | t :: ts =>
    if t == "bedroom_enable" then
      if !mode then (true, some true) else (mode, some false)
    else if t == "bedroom_disable" then
      -- the source only assigns inside `if self.bedroom_mode`, with the
      -- same net result: the mode is false afterwards
      bedroomScan false ts
    else bedroomScan mode ts

/-- The `cesspool:<n>` update of the generic tag loop (onewire.rs lines
798-832), returning the updated state machine and the extra effects
emitted on completion.  A cesspool index of 0 underflows `index - 1`
and an index beyond the vector is out of bounds: both panic in Rust and
are `Except.error` here; an unparseable index is silently skipped. -/
def cesspoolTag (sm : SM) (sensor_on : Bool) (tag : String) :
    Except String (SM × List Effect) :=
  match paramAfterColon tag with
  | some index_chars =>
    match charsToNat index_chars with
    | some index =>
      if index == 0 || sm.cesspool_level.level.length < index then
        .error "panic: index out of bounds in cesspool_level.level"
      else
        let lvl : CesspoolLevel := ⟨sm.cesspool_level.level.set (index - 1) (some sensor_on)⟩
        let sm := { sm with cesspool_level := lvl }
        if lvl.got_all_sensors then
          .ok (sm, [.lcdSetCesspoolLevel lvl.get_level_lcd,
                    .dbUpdateCesspoolLevel lvl.get_level_percentage])
        else .ok (sm, [])
    | none => .ok (sm, [])
  | none => .ok (sm, [])

/-- One iteration of the generic tag loop of `sensor_hook` (onewire.rs
lines 743-833). -/
def processTag (sm : SM) (sensor_name : String) (sensor_on : Bool) (initial_read : Bool)
    (id_sensor : Int) (tag : String) : Except String (SM × List Effect) :=
  let sensor_on := if strContains tag "invert_state" then !sensor_on else sensor_on
  let monEffs : List Effect :=
    if beginsWith tag "monitor_in_influxdb" then [.updateSensorState sensor_on id_sensor]
    else []
  if !initial_read && !(sensor_on || strContains tag "all_changes") then .ok (sm, monEffs)
  else
    let actEffs : List Effect :=
      if !initial_read then
        if beginsWith tag "cmd" then
          match paramAfterColon tag with
          | some command => [.shellCmd command sensor_name sensor_on]
          | none => []
        else if sm.ethlcd && beginsWith tag "doorbell" then [.beepDoorBell]
        else []
      else []
    if beginsWith tag "cesspool" then
      match cesspoolTag sm sensor_on tag with
      | .ok (sm2, extra) => .ok (sm2, monEffs ++ actEffs ++ extra)
      | .error e => .error e
    else .ok (sm, monEffs ++ actEffs)

/-- The generic tag loop of `sensor_hook` over all tags (sequencing the
per-tag steps, propagating a panic). -/
def processTags (sensor_name : String) (sensor_on : Bool) (initial_read : Bool)
    (id_sensor : Int) : SM → List String → Except String (SM × List Effect)
  | sm, [] => .ok (sm, [])
  | sm, t :: ts =>
    match processTag sm sensor_name sensor_on initial_read id_sensor t with
    | .ok (sm1, e1) =>
      match processTags sensor_name sensor_on initial_read id_sensor sm1 ts with
      | .ok (sm2, e2) => .ok (sm2, e1 ++ e2)
      | .error e => .error e
    | .error e => .error e

/-- The `TurnOnProlong` task pushed for one wicket-gate target relay. -/
def mkProlongTask (id : Int) : OneWireTask :=
  ⟨.TurnOnProlong, some id, none, none⟩

/-- The `entry_light` night task pushed by the wicket-gate paths. -/
def entryLightTask : OneWireTask :=
  ⟨.TurnOnProlongNight, none, some "entry_light", some ENTRY_LIGHT_PROLONG_SECS⟩

/-- The tail of `sensor_hook` after the bedroom and wicket blocks:
run the generic tag loop and return `true`. -/
def genericPhase (sm : SM) (sensor_name : String) (sensor_on : Bool) (initial_read : Bool)
    (id_sensor : Int) (sensor_tags : List String) :
    Except String (SM × List OneWireTask × List Effect × Bool) :=
  match processTags sensor_name sensor_on initial_read id_sensor sm sensor_tags with
  | .ok (sm2, effs) => .ok (sm2, [], effs, true)
  | .error e => .error e

/-- The bedroom-mode block of `sensor_hook` (onewire.rs lines 657-679):
only non-initial night-time `PIR_Trigger` on-events are scanned. -/
def bedroomPhase (sm : SM) (sensor_kind_code : String) (sensor_on night initial_read : Bool)
    (sensor_tags : List String) : Bool × Option Bool :=
  if !initial_read && sensor_kind_code == "PIR_Trigger" && sensor_on && night then
    bedroomScan sm.bedroom_mode sensor_tags
  else (sm.bedroom_mode, none)

/-- The guard of the wicket-gate block of `sensor_hook` (onewire.rs
lines 683-696): the first `wicket_gate`-tagged tag, with its optional
`invert_state` applied, fires iff the effective state is on and the
gate is armed; the result carries `(started, delay)`. -/
def wicketArm (sm : SM) (sensor_on initial_read : Bool) (sensor_tags : List String) :
    Option (Nat × Nat) :=
  if !initial_read then
    match sensor_tags.find? (fun t => beginsWith t "wicket_gate") with
    | some tag =>
      let sensor_on := if strContains tag "invert_state" then !sensor_on else sensor_on
      if sensor_on then
        match sm.wicket_gate_started, sm.wicket_gate_delay with
        | some started, some delay => some (started, delay)
        | _, _ => none
      else none
    | none => none
  else none

/-- `StateMachine::sensor_hook` (onewire.rs lines 646-836).  The result
carries the updated state machine, the newly pushed `OneWireTask`s, the
emitted effects and the boolean hook result (`false` = stop processing
this sensor event). -/
def sensor_hook (sm : SM) (now : Nat) (sensor_kind_code sensor_name : String)
    (sensor_on : Bool) (sensor_tags : List String) (night initial_read : Bool)
    (id_sensor : Int) : Except String (SM × List OneWireTask × List Effect × Bool) :=
  -- bedroom mode handling during the night
  let bed := bedroomPhase sm sensor_kind_code sensor_on night initial_read sensor_tags
  let sm := { sm with bedroom_mode := bed.1 }
  match bed.2 with
  | some r => .ok (sm, [], [], r)
  | none =>
    -- wicket gate mode opening (highest priority below the bedroom block)
    match wicketArm sm sensor_on initial_read sensor_tags with
    | some (started, delay) =>
      -- processed => clear
      let sm := { sm with wicket_gate_started := none }
      if now - started < delay then
        let tasks := (sm.wicket_gate_relays.map mkProlongTask) ++
          (if night then [entryLightTask] else [])
        let effs : List Effect := if sm.ethlcd then [.beepConfirmation] else []
        .ok (sm, tasks, effs, false)
      else genericPhase sm sensor_name sensor_on initial_read id_sensor sensor_tags
    | none => genericPhase sm sensor_name sensor_on initial_read id_sensor sensor_tags

/-! ## The worker-side sensor resolution and the RFID wicket arming -/

structure Sensor where
  id_sensor : Int
  id_kind : Int
  name : String
  tags : List String
  associated_relays : List Int
  associated_yeelights : List Int

/-- `HashMap::get` on the sensor-kind table, as an association list. -/
def lookupKind : List (Int × String) → Int → Option String
  | [], _ => none
  | (k, v) :: rest, key => if k == key then some v else lookupKind rest key

/-- The worker fragment that resolves a changed sensor bit and invokes
`sensor_hook` (onewire.rs lines 1149-1175): the kind-code lookup is
`kinds_cloned.get(&sensor.id_kind).unwrap()`, which panics when the kind
is absent from the table. -/
def processBitChange (kinds : List (Int × String)) (sm : SM) (now : Nat) (sensor : Sensor)
    (sensorOn night : Bool) : Except String (SM × List OneWireTask × List Effect × Bool) :=
  match lookupKind kinds sensor.id_kind with
  | none => .error "panic: called Option.unwrap on a None value (sensor kind missing)"
  | some kind_code =>
    sensor_hook sm now kind_code sensor.name sensorOn sensor.tags night false sensor.id_sensor

structure RfidTag where
  id_tag : Nat
  name : String
  tags : List String
  associated_relays : List Int

/-- The `wicket_gate:<delay>` branch of `StateMachine::process_rfid_tags`
for one directive tag (onewire.rs lines 900-954): parse the delay, arm
the gate with the tag's associated relays, beep, and at night push the
`entry_light` task.  The delay string is parsed as integral seconds
(`parse::<f32>` in the source) and stored in milliseconds. -/
def armWicketGate (sm : SM) (now : Nat) (tag : String) (rfid : RfidTag) (night : Bool)
    (pending : List OneWireTask) : SM × List OneWireTask × List Effect :=
  if beginsWith tag "wicket_gate" then
    match paramAfterColon tag with
    | some delay_chars =>
      match charsToNat delay_chars with
      | some val =>
        let delay := val * 1000
        let sm := { sm with wicket_gate_started := some now,
                            wicket_gate_delay := some delay,
                            wicket_gate_relays := rfid.associated_relays }
        let effs : List Effect := if sm.ethlcd then [.beepConfirmation] else []
        (sm, pending ++ (if night then [entryLightTask] else []), effs)
      | none => (sm, pending, [])  -- delay parse error: logged, no arming
    | none => (sm, pending, [])  -- missing delay parameter: logged, no arming
  else (sm, pending, [])

/-! ## Helper definitions for the statements and lemmas -/

/-- The cesspool probe index a tag asks for, if any: a `cesspool`-tagged
tag with a parseable `<n>` parameter. -/
def cesspoolIndex (t : String) : Option Nat :=
  if beginsWith t "cesspool" then
    match paramAfterColon t with
    | some cs => charsToNat cs
    | none => none
  else none

/-- A tag is harmless w.r.t. a cesspool vector of length `len`: if it
requests probe index `idx`, then `1 ≤ idx ≤ len`. -/
def cessOk (len : Nat) (t : String) : Prop :=
  ∀ idx, cesspoolIndex t = some idx → 1 ≤ idx ∧ idx ≤ len

/-- One bedroom-relevant sensor event (non-initial `PIR_Trigger`
on-event at night) fed through `sensor_hook`, as a state transformer
returning the hook's boolean result. -/
def bedroomStep (now : Nat) (sensor_name : String) (sensor_tags : List String) (id_sensor : Int)
    (sm : SM) : SM × Bool :=
  match sensor_hook sm now "PIR_Trigger" sensor_name true sensor_tags true false id_sensor with
  | .ok (sm2, _, _, r) => (sm2, r)
  | .error _ => (sm, true)  -- unreachable for the events used below

/-- Iterated `bedroomStep`: the list of hook results of `n` identical
bedroom-relevant events, with the final state. -/
def bedroomSeq (now : Nat) (sensor_name : String) (sensor_tags : List String) (id_sensor : Int) :
    Nat → SM → List Bool × SM
  | 0, sm => ([], sm)
  | n + 1, sm =>
    let s1 := bedroomStep now sensor_name sensor_tags id_sensor sm
    let s2 := bedroomSeq now sensor_name sensor_tags id_sensor n s1.1
    (s1.2 :: s2.1, s2.2)

/-! ## Lemmas about the tag loops -/

theorem bedroomScan_of_not_mem (m : Bool) (ts : List String)
    (h1 : "bedroom_enable" ∉ ts) (h2 : "bedroom_disable" ∉ ts) :
    bedroomScan m ts = (m, none) := by
  induction ts with
  | nil => rfl
  | cons t ts ih =>
    simp only [List.mem_cons, not_or] at h1 h2
    have e1 : (t == "bedroom_enable") = false := by
      simp only [beq_eq_false_iff_ne, ne_eq]
      exact fun hh => h1.1 hh.symm
    have e2 : (t == "bedroom_disable") = false := by
      simp only [beq_eq_false_iff_ne, ne_eq]
      exact fun hh => h2.1 hh.symm
    simp only [bedroomScan, e1, e2, Bool.false_eq_true, if_false]
    exact ih h1.2 h2.2

theorem bedroomScan_of_enable (m : Bool) (ts : List String)
    (h1 : "bedroom_enable" ∈ ts) (h2 : "bedroom_disable" ∉ ts) :
    bedroomScan m ts = (true, some (!m)) := by
  induction ts with
  | nil => cases h1
  | cons t ts ih =>
    simp only [List.mem_cons, not_or] at h2
    by_cases he : t = "bedroom_enable"
    · subst he
      cases m with
      | false => rfl
      | true => rfl
    · have e1 : (t == "bedroom_enable") = false := by
        simp only [beq_eq_false_iff_ne, ne_eq]
        exact he
      have e2 : (t == "bedroom_disable") = false := by
        simp only [beq_eq_false_iff_ne, ne_eq]
        exact fun hh => h2.1 hh.symm
      simp only [bedroomScan, e1, e2, Bool.false_eq_true, if_false]
      have h1' : "bedroom_enable" ∈ ts := by
        rcases List.mem_cons.mp h1 with h | h
        · exact absurd h.symm he
        · exact h
      exact ih h1' h2.2

theorem bedroomScan_false_of_no_enable (ts : List String)
    (h1 : "bedroom_enable" ∉ ts) :
    bedroomScan false ts = (false, none) := by
  induction ts with
  | nil => rfl
  | cons t ts ih =>
    simp only [List.mem_cons, not_or] at h1
    have e1 : (t == "bedroom_enable") = false := by
      simp only [beq_eq_false_iff_ne, ne_eq]
      exact fun hh => h1.1 hh.symm
    by_cases hd : t = "bedroom_disable"
    · subst hd
      simp only [bedroomScan, e1, Bool.false_eq_true, if_false, beq_self_eq_true, if_true]
      exact ih h1.2
    · have e2 : (t == "bedroom_disable") = false := by
        simp only [beq_eq_false_iff_ne, ne_eq]
        exact hd
      simp only [bedroomScan, e1, e2, Bool.false_eq_true, if_false]
      exact ih h1.2

theorem bedroomScan_of_disable (m : Bool) (ts : List String)
    (h1 : "bedroom_enable" ∉ ts) (h2 : "bedroom_disable" ∈ ts) :
    bedroomScan m ts = (false, none) := by
  induction ts with
  | nil => cases h2
  | cons t ts ih =>
    simp only [List.mem_cons, not_or] at h1
    have e1 : (t == "bedroom_enable") = false := by
      simp only [beq_eq_false_iff_ne, ne_eq]
      exact fun hh => h1.1 hh.symm
    by_cases hd : t = "bedroom_disable"
    · subst hd
      simp only [bedroomScan, e1, Bool.false_eq_true, if_false, beq_self_eq_true, if_true]
      exact bedroomScan_false_of_no_enable ts h1.2
    · have e2 : (t == "bedroom_disable") = false := by
        simp only [beq_eq_false_iff_ne, ne_eq]
        exact hd
      simp only [bedroomScan, e1, e2, Bool.false_eq_true, if_false]
      have h2' : "bedroom_disable" ∈ ts := by
        rcases List.mem_cons.mp h2 with h | h
        · exact absurd h.symm hd
        · exact h
      exact ih h1.2 h2'

theorem ite_ok_shape {ε α β : Type} (C : Prop) [Decidable C] (x : α) (A B : β) :
    ∃ e, (if C then (Except.ok (x, A) : Except ε (α × β)) else .ok (x, B)) = .ok (x, e) := by
  by_cases h : C
  · exact ⟨A, if_pos h⟩
  · exact ⟨B, if_neg h⟩

theorem processTag_no_cesspool (sm : SM) (sensor_name : String) (sensor_on initial_read : Bool)
    (id_sensor : Int) (t : String) (h : beginsWith t "cesspool" = false) :
    ∃ effs, processTag sm sensor_name sensor_on initial_read id_sensor t = .ok (sm, effs) := by
  simp only [processTag, h, Bool.false_eq_true, if_false]
  exact ite_ok_shape _ sm _ _

theorem cesspoolTag_total (sm : SM) (sensor_on : Bool) (t : String)
    (hc : beginsWith t "cesspool" = true)
    (h : cessOk sm.cesspool_level.level.length t) :
    ∃ sm2 extra, cesspoolTag sm sensor_on t = .ok (sm2, extra) ∧
      sm2.cesspool_level.level.length = sm.cesspool_level.level.length := by
  cases hp : paramAfterColon t with
  | none => exact ⟨sm, [], by simp [cesspoolTag, hp], rfl⟩
  | some cs =>
    cases hn : charsToNat cs with
    | none => exact ⟨sm, [], by simp [cesspoolTag, hp, hn], rfl⟩
    | some idx =>
      have hidx : 1 ≤ idx ∧ idx ≤ sm.cesspool_level.level.length := by
        apply h
        simp [cesspoolIndex, hc, hp, hn]
      have hz : (idx == 0) = false := by
        simp only [beq_eq_false_iff_ne, ne_eq]
        omega
      have hl : decide (sm.cesspool_level.level.length < idx) = false := by
        simp only [decide_eq_false_iff_not, not_lt]
        omega
      simp only [cesspoolTag, hp, hn, hz, hl, Bool.false_or, Bool.or_false,
        Bool.false_eq_true, if_false]
      split
      · exact ⟨_, _, rfl, by simp⟩
      · exact ⟨_, _, rfl, by simp⟩

theorem processTag_total (sm : SM) (sensor_name : String) (sensor_on initial_read : Bool)
    (id_sensor : Int) (t : String) (h : cessOk sm.cesspool_level.level.length t) :
    ∃ sm2 effs, processTag sm sensor_name sensor_on initial_read id_sensor t = .ok (sm2, effs) ∧
      sm2.cesspool_level.level.length = sm.cesspool_level.level.length := by
  by_cases hc : beginsWith t "cesspool" = true
  · obtain ⟨sm2, extra, he, hl⟩ := cesspoolTag_total sm
      (if strContains t "invert_state" then !sensor_on else sensor_on) t hc h
    simp only [processTag, hc, if_true, he]
    by_cases hskip : (!initial_read &&
        !((if strContains t "invert_state" then !sensor_on else sensor_on) ||
          strContains t "all_changes")) = true
    · rw [if_pos hskip]
      exact ⟨sm, _, rfl, rfl⟩
    · rw [if_neg hskip]
      exact ⟨sm2, _, rfl, hl⟩
  · obtain ⟨effs, he⟩ :=
      processTag_no_cesspool sm sensor_name sensor_on initial_read id_sensor t
        (Bool.not_eq_true _ ▸ hc)
    exact ⟨sm, effs, he, rfl⟩

theorem processTags_no_cesspool (sensor_name : String) (sensor_on initial_read : Bool)
    (id_sensor : Int) (sm : SM) (ts : List String)
    (h : ∀ t ∈ ts, beginsWith t "cesspool" = false) :
    ∃ effs, processTags sensor_name sensor_on initial_read id_sensor sm ts = .ok (sm, effs) := by
  induction ts generalizing sm with
  | nil => exact ⟨[], rfl⟩
  | cons t ts ih =>
    obtain ⟨e1, h1⟩ :=
      processTag_no_cesspool sm sensor_name sensor_on initial_read id_sensor t
        (h t (List.mem_cons_self t ts))
    obtain ⟨e2, h2⟩ := ih sm (fun u hu => h u (List.mem_cons_of_mem t hu))
    exact ⟨e1 ++ e2, by simp [processTags, h1, h2]⟩

theorem processTags_total (sensor_name : String) (sensor_on initial_read : Bool)
    (id_sensor : Int) (sm : SM) (ts : List String)
    (h : ∀ t ∈ ts, cessOk sm.cesspool_level.level.length t) :
    ∃ sm2 effs, processTags sensor_name sensor_on initial_read id_sensor sm ts = .ok (sm2, effs) ∧
      sm2.cesspool_level.level.length = sm.cesspool_level.level.length := by
  induction ts generalizing sm with
  | nil => exact ⟨sm, [], rfl, rfl⟩
  | cons t ts ih =>
    obtain ⟨sm1, e1, h1, hl1⟩ :=
      processTag_total sm sensor_name sensor_on initial_read id_sensor t
        (h t (List.mem_cons_self t ts))
    obtain ⟨sm2, e2, h2, hl2⟩ := ih sm1 (fun u hu => hl1 ▸ h u (List.mem_cons_of_mem t hu))
    exact ⟨sm2, e1 ++ e2, by simp [processTags, h1, h2], hl2.trans hl1⟩

/-! ## Lemmas about `sensor_hook` -/

theorem bedroomPhase_of_not_mem (sm : SM) (kind : String) (sensorOn night init : Bool)
    (tags : List String)
    (h1 : "bedroom_enable" ∉ tags) (h2 : "bedroom_disable" ∉ tags) :
    bedroomPhase sm kind sensorOn night init tags = (sm.bedroom_mode, none) := by
  unfold bedroomPhase
  split
  · exact bedroomScan_of_not_mem _ _ h1 h2
  · rfl

theorem wicketArm_of_find (sm : SM) (sensorOn : Bool) (tags : List String) (tg : String)
    (started delay : Nat)
    (hfind : tags.find? (fun t => beginsWith t "wicket_gate") = some tg)
    (heff : (if strContains tg "invert_state" then !sensorOn else sensorOn) = true)
    (hstart : sm.wicket_gate_started = some started)
    (hdelay : sm.wicket_gate_delay = some delay) :
    wicketArm sm sensorOn false tags = some (started, delay) := by
  simp only [wicketArm, Bool.not_false, if_true, hfind, heff, hstart, hdelay]

theorem genericPhase_total (sm : SM) (sensor_name : String) (sensor_on initial_read : Bool)
    (id_sensor : Int) (tags : List String)
    (h : ∀ t ∈ tags, cessOk sm.cesspool_level.level.length t) :
    ∃ sm2 effs, genericPhase sm sensor_name sensor_on initial_read id_sensor tags =
      .ok (sm2, [], effs, true) := by
  obtain ⟨sm2, effs, he, _⟩ :=
    processTags_total sensor_name sensor_on initial_read id_sensor sm tags h
  exact ⟨sm2, effs, by simp [genericPhase, he]⟩

theorem genericPhase_no_cesspool (sm : SM) (sensor_name : String)
    (sensor_on initial_read : Bool) (id_sensor : Int) (tags : List String)
    (h : ∀ t ∈ tags, beginsWith t "cesspool" = false) :
    ∃ effs, genericPhase sm sensor_name sensor_on initial_read id_sensor tags =
      .ok (sm, [], effs, true) := by
  obtain ⟨effs, he⟩ :=
    processTags_no_cesspool sensor_name sensor_on initial_read id_sensor sm tags h
  exact ⟨effs, by simp [genericPhase, he]⟩

theorem sensor_hook_wicket_cases (sm : SM) (now started delay : Nat) (kind name : String)
    (sensorOn night : Bool) (tags : List String) (tg : String) (id : Int)
    (hb1 : "bedroom_enable" ∉ tags) (hb2 : "bedroom_disable" ∉ tags)
    (hfind : tags.find? (fun t => beginsWith t "wicket_gate") = some tg)
    (heff : (if strContains tg "invert_state" then !sensorOn else sensorOn) = true)
    (hstart : sm.wicket_gate_started = some started)
    (hdelay : sm.wicket_gate_delay = some delay)
    (hcess : ∀ t ∈ tags, beginsWith t "cesspool" = false) :
    (now - started < delay →
      sensor_hook sm now kind name sensorOn tags night false id =
        .ok ({ sm with wicket_gate_started := none },
             (sm.wicket_gate_relays.map mkProlongTask) ++
               (if night then [entryLightTask] else []),
             (if sm.ethlcd then [Effect.beepConfirmation] else []), false)) ∧
    (delay ≤ now - started →
      ∃ effs, sensor_hook sm now kind name sensorOn tags night false id =
        .ok ({ sm with wicket_gate_started := none }, [], effs, true)) := by
  have hbed := bedroomPhase_of_not_mem sm kind sensorOn night false tags hb1 hb2
  have harm := wicketArm_of_find sm sensorOn tags tg started delay hfind heff hstart hdelay
  constructor
  · intro hlt
    simp only [sensor_hook, hbed, harm, if_pos hlt]
  · intro hge
    obtain ⟨effs, hgen⟩ := genericPhase_no_cesspool { sm with wicket_gate_started := none }
      name sensorOn false id tags hcess
    refine ⟨effs, ?_⟩
    simp only [sensor_hook, hbed, harm, if_neg (Nat.not_lt.mpr hge)]
    exact hgen

theorem sensor_hook_total (sm : SM) (now : Nat) (kind name : String) (sensorOn : Bool)
    (tags : List String) (night init : Bool) (id : Int)
    (h : ∀ t ∈ tags, cessOk sm.cesspool_level.level.length t) :
    ∃ out, sensor_hook sm now kind name sensorOn tags night init id = .ok out := by
  simp only [sensor_hook]
  cases hb : (bedroomPhase sm kind sensorOn night init tags).2 with
  | some r =>
    simp only [hb]
    exact ⟨_, rfl⟩
  | none =>
    simp only [hb]
    cases hw : wicketArm { sm with bedroom_mode := (bedroomPhase sm kind sensorOn night init tags).1 }
        sensorOn init tags with
    | none =>
      simp only [hw]
      obtain ⟨sm2, effs, he⟩ := genericPhase_total
        { sm with bedroom_mode := (bedroomPhase sm kind sensorOn night init tags).1 }
        name sensorOn init id tags h
      exact ⟨_, he⟩
    | some sd =>
      simp only [hw]
      by_cases hlt : now - sd.1 < sd.2
      · rw [if_pos hlt]
        exact ⟨_, rfl⟩
      · obtain ⟨sm2, effs, he⟩ := genericPhase_total
          { sm with bedroom_mode := (bedroomPhase sm kind sensorOn night init tags).1,
                    wicket_gate_started := none }
          name sensorOn init id tags h
        exact ⟨_, by rw [if_neg hlt]; exact he⟩

theorem bedroomStep_enable_off (sm : SM) (now : Nat) (name : String) (tags : List String)
    (id : Int)
    (h1 : "bedroom_enable" ∈ tags) (h2 : "bedroom_disable" ∉ tags)
    (hm : sm.bedroom_mode = false) :
    bedroomStep now name tags id sm = ({ sm with bedroom_mode := true }, true) := by
  have hb : bedroomPhase sm "PIR_Trigger" true true false tags = (true, some true) := by
    unfold bedroomPhase
    rw [if_pos (by simp), hm, bedroomScan_of_enable false tags h1 h2]
    rfl
  unfold bedroomStep
  simp only [sensor_hook, hb]

theorem bedroomStep_enable_on (sm : SM) (now : Nat) (name : String) (tags : List String)
    (id : Int)
    (h1 : "bedroom_enable" ∈ tags) (h2 : "bedroom_disable" ∉ tags)
    (hm : sm.bedroom_mode = true) :
    bedroomStep now name tags id sm = (sm, false) := by
  have hb : bedroomPhase sm "PIR_Trigger" true true false tags = (true, some false) := by
    unfold bedroomPhase
    rw [if_pos (by simp), hm, bedroomScan_of_enable true tags h1 h2]
    rfl
  have hsm : ({ sm with bedroom_mode := true } : SM) = sm := by rw [← hm]
  unfold bedroomStep
  simp only [sensor_hook, hb, hsm]

theorem bedroomSeq_fixed (now : Nat) (name : String) (tags : List String) (id : Int)
    (h1 : "bedroom_enable" ∈ tags) (h2 : "bedroom_disable" ∉ tags) (n : Nat) (sm : SM)
    (hm : sm.bedroom_mode = true) :
    bedroomSeq now name tags id n sm = (List.replicate n false, sm) := by
  induction n with
  | zero => rfl
  | succ n ih =>
    simp only [bedroomSeq, bedroomStep_enable_on sm now name tags id h1 h2 hm, ih,
      List.replicate_succ]

/-! ## Concrete fixtures for counterexamples and witnesses -/

/-- A default-configured relay, toggled at time 0, holding for 120 s. -/
def rFix : Relay :=
  { id_relay := 1, name := "lamp", tags := [], pir_exclude := false,
    pir_hold_secs := DEFAULT_PIR_HOLD_SECS, switch_hold_secs := DEFAULT_SWITCH_HOLD_SECS,
    pir_all_day := false, override_mode := false, last_toggled := some 0,
    stop_after := some 120000 }

/-- A relay board whose bit 0 is on (cleared) with no staged value. -/
def rbFix : RelayBoardState := { new_value := none, last_value := some 0xfe, fileOpen := true }

/-- An override-mode relay whose 2 s hold has long expired at time 5000. -/
def rC2 : Relay := { rFix with stop_after := some 2000, override_mode := true }

/-- An `all_night`-tagged relay with no running timer. -/
def rC6 : Relay := { rFix with tags := ["all_night"], last_toggled := none, stop_after := none }

/-- A state machine with an unarmed gate and a two-probe cesspool vector. -/
def smFix : SM :=
  { bedroom_mode := false, wicket_gate_started := none, wicket_gate_delay := none,
    wicket_gate_relays := [], ethlcd := false, cesspool_level := ⟨[none, none]⟩ }

/-- A state machine whose wicket gate is armed at time 0 for 5 s, target relay 7. -/
def smArmed : SM :=
  { bedroom_mode := false, wicket_gate_started := some 0, wicket_gate_delay := some 5000,
    wicket_gate_relays := [7], ethlcd := false, cesspool_level := ⟨[]⟩ }

/-! ## Claims -/

/-- C1 (counterexample): a PIR-on event 900 ms after the last toggle is
flip-flop blocked, yet — because the relay is already on, so the prolong
branch runs — it changes `stop_after` from 120000 to 120900 ms.  So the
claim that a blocked attempt leaves the output bit AND `stop_after` both
unchanged is false: only the bit survives. -/
theorem claim_C1_counterexample :
    flipflopBlocked 900 rFix = true ∧
    rFix.stop_after = some 120000 ∧
    (pirTransition 900 true true 0 rFix rbFix).1.stop_after = some 120900 ∧
    (pirTransition 900 true true 0 rFix rbFix).2 = rbFix := by
  refine ⟨by decide, by decide, by decide, by decide⟩

/-- C1 (amended): while flip-flop blocked, every toggle attempt (PIR-on,
switch-toggle, external task) leaves the board bytes, `last_toggled` and
`override_mode` unchanged and emits no counter intent; `stop_after` is
additionally unchanged in every branch that could change the output bit
(PIR-on / TurnOnProlong on an off non-override relay, any switch
toggle, TurnOff); only the prolong branches may still update
`stop_after` despite the block. -/
theorem claim_C1_amended (now i : Nat) (night sensorOn : Bool) (cmd : TaskCommand)
    (dur : Option Nat) (r : Relay) (rb : RelayBoardState)
    (hblock : flipflopBlocked now r = true) :
    ((pirTransition now night sensorOn i r rb).2 = rb ∧
     (pirTransition now night sensorOn i r rb).1.last_toggled = r.last_toggled ∧
     (pirTransition now night sensorOn i r rb).1.override_mode = r.override_mode) ∧
    switchTransition now i r rb = (r, rb) ∧
    ((applyTask now i cmd dur r rb).2.1 = rb ∧
     (applyTask now i cmd dur r rb).1.last_toggled = r.last_toggled ∧
     (applyTask now i cmd dur r rb).1.override_mode = r.override_mode ∧
     (applyTask now i cmd dur r rb).2.2 = false) ∧
    (r.override_mode = false → (baseState rb).testBit i = true →
      pirTransition now night sensorOn i r rb = (r, rb) ∧
      applyTask now i TaskCommand.TurnOnProlong dur r rb = (r, rb, false)) ∧
    applyTask now i TaskCommand.TurnOff dur r rb = (r, rb, false) := by
  refine ⟨?_, ?_, ?_, ?_, ?_⟩
  · simp only [pirTransition, hblock]
    repeat' split
    all_goals simp_all
  · simp only [switchTransition, hblock]
    simp
  · cases cmd
    case TurnOnProlong =>
      simp only [applyTask, hblock]
      repeat' split
      all_goals simp_all
    case TurnOnProlongNight =>
      simp only [applyTask]
      exact ⟨trivial, trivial, trivial, trivial⟩
    case TurnOff =>
      simp only [applyTask, hblock]
      repeat' split
      all_goals simp_all
  · intro hov hbit
    constructor
    · simp [pirTransition, hblock, hov, hbit]
    · simp [applyTask, hblock, hov, hbit]
  · simp only [applyTask, hblock]
    repeat' split
    all_goals simp_all

/-- C1 (witness): concrete instance of the amended claim — a blocked
switch toggle leaves relay and board untouched. -/
theorem claim_C1_witness : switchTransition 900 0 rFix rbFix = (rFix, rbFix) :=
  (claim_C1_amended 900 0 true true TaskCommand.TurnOff none rFix rbFix (by decide)).2.1

/-- C2 (counterexample): the auto-off sweep fires at time 5000 (elapsed
5000 > 1000 and > 2000) on an on relay, turns the bit off — but then
stamps `last_toggled := now` instead of clearing it, refuting the claim
that the sweep clears `last_toggled` when the timeout is reached. -/
theorem claim_C2_counterexample :
    rC2.last_toggled = some 0 ∧ rC2.stop_after = some 2000 ∧
    (sweepRelay 5000 0 rC2 rbFix).2.1.new_value = some 0xff ∧
    (sweepRelay 5000 0 rC2 rbFix).1.last_toggled = some 5000 := by
  refine ⟨by decide, by decide, by decide, by decide⟩

/-- C2 (amended): the sweep acts on a relay iff `last_toggled` and
`stop_after` are both set and the elapsed time strictly exceeds both
`MIN_TOGGLE_DELAY_SECS` and `stop_after`.  When it acts on a relay whose
output bit is on, it sets the bit off, clears `stop_after` and
`override_mode`, and stamps `last_toggled := now` (it does not clear
it); `last_toggled` is cleared only when the relay was already off, in
which case the byte is untouched. -/
theorem claim_C2_amended (now i : Nat) (r : Relay) (rb : RelayBoardState) :
    (∀ toggled stop_after, r.last_toggled = some toggled → r.stop_after = some stop_after →
      now - toggled > MIN_TOGGLE_DELAY_SECS → now - toggled > stop_after →
      (((baseState rb).testBit i = false →
        sweepRelay now i r rb =
          ({ r with last_toggled := some now, stop_after := none, override_mode := false },
           { rb with new_value := some (setBit (baseState rb) i) }, true)) ∧
       ((baseState rb).testBit i = true →
        sweepRelay now i r rb =
          ({ r with last_toggled := none, stop_after := none, override_mode := false },
           rb, false)))) ∧
    ((∀ toggled stop_after, r.last_toggled = some toggled → r.stop_after = some stop_after →
        now - toggled ≤ MIN_TOGGLE_DELAY_SECS ∨ now - toggled ≤ stop_after) →
      sweepRelay now i r rb = (r, rb, false)) := by
  constructor
  · intro toggled stop_after h1 h2 h3 h4
    constructor
    · intro hbit
      simp only [sweepRelay, h1, h2]
      rw [if_pos ⟨h3, h4⟩]
      simp [hbit]
    · intro hbit
      simp only [sweepRelay, h1, h2]
      rw [if_pos ⟨h3, h4⟩]
      simp [hbit]
  · intro hno
    cases h1 : r.last_toggled with
    | none => simp [sweepRelay, h1]
    | some toggled =>
      cases h2 : r.stop_after with
      | none => simp [sweepRelay, h1, h2]
      | some sa =>
        have hd := hno toggled sa h1 h2
        simp only [sweepRelay, h1, h2]
        rw [if_neg (by omega)]

/-- C2 (witness): concrete instance of the amended sweep behaviour on an
on relay with an expired timer. -/
theorem claim_C2_witness :
    sweepRelay 5000 0 rC2 rbFix =
      ({ rC2 with last_toggled := some 5000, stop_after := none, override_mode := false },
       { rbFix with new_value := some (setBit (baseState rbFix) 0) }, true) :=
  ((claim_C2_amended 5000 0 rC2 rbFix).1 0 2000 rfl rfl (by decide) (by decide)).1 (by decide)

/-- C3: arming the wicket gate (via a `wicket_gate:<D>` RFID directive)
sets `started := now`, the parsed delay and the stored target relays;
a subsequent qualifying confirmation event at elapsed time `< delay`
pushes exactly the list of one `TurnOnProlong` task per stored target
relay (plus, at night, one `TurnOnProlongNight` task for the
`entry_light` group) and stops processing; at elapsed time `≥ delay` it
pushes no tasks; in both cases `wicket_gate_started` is cleared. -/
theorem claim_C3
    (smA : SM) (nowA : Nat) (tagA : String) (dc : List Char) (D : Nat)
    (rfid : RfidTag) (nightA : Bool) (pend : List OneWireTask)
    (hA1 : beginsWith tagA "wicket_gate" = true)
    (hA2 : paramAfterColon tagA = some dc) (hA3 : charsToNat dc = some D)
    (sm : SM) (now started delay : Nat) (kind name : String) (sensorOn night : Bool)
    (tags : List String) (tg : String) (id : Int)
    (hb1 : "bedroom_enable" ∉ tags) (hb2 : "bedroom_disable" ∉ tags)
    (hfind : tags.find? (fun t => beginsWith t "wicket_gate") = some tg)
    (heff : (if strContains tg "invert_state" then !sensorOn else sensorOn) = true)
    (hstart : sm.wicket_gate_started = some started)
    (hdelay : sm.wicket_gate_delay = some delay)
    (hcess : ∀ t ∈ tags, beginsWith t "cesspool" = false) :
    ((armWicketGate smA nowA tagA rfid nightA pend).1 =
      { smA with wicket_gate_started := some nowA, wicket_gate_delay := some (D * 1000),
                 wicket_gate_relays := rfid.associated_relays }) ∧
    (now - started < delay →
      sensor_hook sm now kind name sensorOn tags night false id =
        .ok ({ sm with wicket_gate_started := none },
             (sm.wicket_gate_relays.map mkProlongTask) ++
               (if night then [entryLightTask] else []),
             (if sm.ethlcd then [Effect.beepConfirmation] else []), false)) ∧
    (delay ≤ now - started →
      ∃ effs, sensor_hook sm now kind name sensorOn tags night false id =
        .ok ({ sm with wicket_gate_started := none }, [], effs, true)) := by
  have h := sensor_hook_wicket_cases sm now started delay kind name sensorOn night tags tg id
    hb1 hb2 hfind heff hstart hdelay hcess
  refine ⟨?_, h.1, h.2⟩
  simp only [armWicketGate, hA1, if_true, hA2, hA3]

/-- C3 (witness): concrete arming followed by a confirmation inside the
window produces exactly one task for the stored relay 7 plus the
entry-light task (night), and clears the armed state. -/
theorem claim_C3_witness :
    sensor_hook smArmed 4000 "PIR_Trigger" "door" true ["wicket_gate"] true false 1 =
      .ok ({ smArmed with wicket_gate_started := none },
           [mkProlongTask 7, entryLightTask], [], false) :=
  (claim_C3 smArmed 100 "wicket_gate:30" (String.data "30") 30
      ⟨9, "key", ["wicket_gate:30"], [3, 4]⟩ false [] (by decide) (by decide) (by decide)
      smArmed 4000 0 5000 "PIR_Trigger" "door" true true ["wicket_gate"] "wicket_gate" 1
      (by decide) (by decide) (by decide) (by decide) rfl rfl (by decide)).2.1 (by decide)

/-- C4 (counterexample): a qualifying wicket-gate confirmation arriving
after the delay (elapsed 6000 ≥ 5000) clears the armed state but the
hook returns `true` — it does NOT stop further processing — refuting
the claim that it returns false regardless of the delay check. -/
theorem claim_C4_counterexample :
    smArmed.wicket_gate_started = some 0 ∧ smArmed.wicket_gate_delay = some 5000 ∧
    sensor_hook smArmed 6000 "PIR_Trigger" "door" true ["wicket_gate"] false false 1 =
      .ok ({ smArmed with wicket_gate_started := none }, [], [], true) :=
  ⟨rfl, rfl, rfl⟩

/-- C4 (amended): for a qualifying wicket-gate confirmation while armed,
the armed state is always cleared, but the hook returns `false` iff the
confirmation arrived within the delay window; a late confirmation falls
through to generic processing and returns `true`. -/
theorem claim_C4_amended (sm : SM) (now started delay : Nat) (kind name : String)
    (sensorOn night : Bool) (tags : List String) (tg : String) (id : Int)
    (hb1 : "bedroom_enable" ∉ tags) (hb2 : "bedroom_disable" ∉ tags)
    (hfind : tags.find? (fun t => beginsWith t "wicket_gate") = some tg)
    (heff : (if strContains tg "invert_state" then !sensorOn else sensorOn) = true)
    (hstart : sm.wicket_gate_started = some started)
    (hdelay : sm.wicket_gate_delay = some delay)
    (hcess : ∀ t ∈ tags, beginsWith t "cesspool" = false) :
    ∃ sm2 tasks effs,
      sensor_hook sm now kind name sensorOn tags night false id =
        .ok (sm2, tasks, effs, !decide (now - started < delay)) ∧
      sm2.wicket_gate_started = none := by
  have h := sensor_hook_wicket_cases sm now started delay kind name sensorOn night tags tg id
    hb1 hb2 hfind heff hstart hdelay hcess
  by_cases hlt : now - started < delay
  · refine ⟨{ sm with wicket_gate_started := none },
      (sm.wicket_gate_relays.map mkProlongTask) ++ (if night then [entryLightTask] else []),
      (if sm.ethlcd then [Effect.beepConfirmation] else []), ?_, rfl⟩
    rw [show (!decide (now - started < delay)) = false by simp [hlt]]
    exact h.1 hlt
  · obtain ⟨effs, he⟩ := h.2 (Nat.le_of_not_lt hlt)
    refine ⟨{ sm with wicket_gate_started := none }, [], effs, ?_, rfl⟩
    rw [show (!decide (now - started < delay)) = true by simp [hlt]]
    exact he

/-- C4 (witness): concrete instance of the amended claim for a late
confirmation. -/
theorem claim_C4_witness :
    ∃ sm2 tasks effs,
      sensor_hook smArmed 6000 "PIR_Trigger" "door" true ["wicket_gate"] false false 1 =
        .ok (sm2, tasks, effs, !decide (6000 - 0 < 5000)) ∧
      sm2.wicket_gate_started = none :=
  claim_C4_amended smArmed 6000 0 5000 "PIR_Trigger" "door" true false ["wicket_gate"]
    "wicket_gate" 1 (by decide) (by decide) (by decide) (by decide) rfl rfl (by decide)

/-- C5 (counterexample): with probes `[on, on, off]` the source computes
`(2/3 * 100) as u8 = 66`, while round-to-nearest gives 67: the
percentage is truncated, not rounded. -/
theorem claim_C5_counterexample :
    CesspoolLevel.get_level_percentage ⟨[some true, some true, some false]⟩ = 66 ∧
    specRoundPercentage ⟨[some true, some true, some false]⟩ = 67 := by
  refine ⟨by decide, by decide⟩

set_option maxRecDepth 40000 in
set_option maxHeartbeats 4000000 in
/-- C5 (amended): `percentage()` is the `u8`-truncation of the binary32
computation `(true_count as f32 / len as f32) * 100f32` — truncating,
not rounding — and for every vector of up to 100 probes it equals the
exact truncated percentage `⌊100 * true_count / len⌋` or undershoots it
by exactly one; the undershoot is real: 53 occupied of 100 probes
yields 52, not 53. -/
theorem claim_C5_amended :
    (∀ c : CesspoolLevel,
      CesspoolLevel.get_level_percentage c =
        f32Percentage c.get_level_lcd c.level.length) ∧
    (∀ len, len ≤ 100 → ∀ count, count ≤ len →
      f32Percentage count len ≤ 100 * count / len ∧
      100 * count / len ≤ f32Percentage count len + 1) ∧
    f32Percentage 53 100 = 52 := by
  refine ⟨fun c => rfl, pctBoundCheck_spec 100 (by decide), by decide⟩

/-- C5 (witness): the truncation bound at the `[on, on, off]` vector:
the computed 66 sits within one below the exact `⌊200 / 3⌋ = 66`. -/
theorem claim_C5_witness :
    f32Percentage 2 3 ≤ 100 * 2 / 3 ∧ 100 * 2 / 3 ≤ f32Percentage 2 3 + 1 :=
  claim_C5_amended.2.1 3 (by decide) 2 (by decide)

/-- C6 (counterexample): flushing writes whenever a stage is present,
not only when it differs from the last written byte.  Reachable
scenario: on a day→night transition an `all_night` relay that is
already on re-stages the unchanged byte 0xfe, and `save_state` still
performs a hardware write although staged = last written. -/
theorem claim_C6_counterexample :
    (allNightUpdate 5000 true 0 rC6 rbFix).2.1.new_value = some 0xfe ∧
    rbFix.last_value = some 0xfe ∧
    (save_state (allNightUpdate 5000 true 0 rC6 rbFix).2.1 true true).2 = true := by
  refine ⟨by decide, by decide, by decide⟩

/-- C6 (amended): `save_state` performs a hardware write iff the output
file is available and a staged value is present (the staged-differs
guard exists only at the sensor-processing flush site, not inside
`save_state`); after a successful write the staged value becomes
`last_value` and the stage is cleared. -/
theorem claim_C6_amended (rb : RelayBoardState) (openOk writeOk : Bool) :
    ((save_state rb openOk writeOk).2 = true ↔
      (rb.fileOpen || openOk) = true ∧ rb.new_value.isSome = true) ∧
    (∀ val, rb.new_value = some val → (rb.fileOpen || openOk) = true → writeOk = true →
      (save_state rb openOk writeOk).1.last_value = some val ∧
      (save_state rb openOk writeOk).1.new_value = none) := by
  obtain ⟨nv, lv, fo⟩ := rb
  cases fo <;> cases openOk <;> cases writeOk <;> cases nv <;>
    simp [save_state]

/-- C6 (witness): a successful write of staged byte 0xfe lands in
`last_value` and clears the stage. -/
theorem claim_C6_witness :
    (save_state ⟨some 0xfe, some 0xff, true⟩ true true).1.last_value = some 0xfe ∧
    (save_state ⟨some 0xfe, some 0xff, true⟩ true true).1.new_value = none :=
  (claim_C6_amended ⟨some 0xfe, some 0xff, true⟩ true true).2 0xfe rfl rfl rfl

/-- C7 (counterexample): two failures ARE fatal, refuting "nothing in
this core panics": a `cesspool:0` tag (also spelled `cesspool:+0`,
since Rust's `parse::<usize>` accepts a leading `+`) makes
`level[index - 1]` panic (usize underflow / index out of bounds), and
a sensor whose kind code is absent from the kinds table panics in the
worker's `kinds.get(..).unwrap()`. -/
theorem claim_C7_counterexample :
    sensor_hook smFix 0 "PIR_Trigger" "probe" true ["cesspool:0"] false false 1 =
      .error "panic: index out of bounds in cesspool_level.level" ∧
    sensor_hook smFix 0 "PIR_Trigger" "probe" true ["cesspool:+0"] false false 1 =
      .error "panic: index out of bounds in cesspool_level.level" ∧
    processBitChange [] smFix 0 ⟨2, 5, "s", [], [], []⟩ true false =
      .error "panic: called Option.unwrap on a None value (sensor kind missing)" :=
  ⟨rfl, rfl, rfl⟩

/-- C7 (amended): event processing is non-panicking (returns `.ok`,
i.e. logs and drops what it cannot handle) provided the sensor kind is
present in the kinds table and every `cesspool:<n>` tag is either
unparseable (dropped) or within `1 ≤ n ≤ len`; a kind missing from the
table or a cesspool index of 0 / beyond the vector panics. -/
theorem claim_C7_amended (kinds : List (Int × String)) (sm : SM) (now : Nat) (sensor : Sensor)
    (sensorOn night : Bool)
    (hkind : (lookupKind kinds sensor.id_kind).isSome = true)
    (hcess : ∀ t ∈ sensor.tags, cessOk sm.cesspool_level.level.length t) :
    ∃ out, processBitChange kinds sm now sensor sensorOn night = .ok out := by
  unfold processBitChange
  cases hk : lookupKind kinds sensor.id_kind with
  | none => rw [hk] at hkind; cases hkind
  | some kc =>
    simp only [hk]
    exact sensor_hook_total sm now kc sensor.name sensorOn sensor.tags night false
      sensor.id_sensor hcess

/-- C7 (witness): a sensor with a known kind and an in-range
`cesspool:2` tag is processed without a panic. -/
theorem claim_C7_witness :
    ∃ out, processBitChange [((5 : Int), "PIR_Trigger")] smFix 0
      ⟨1, 5, "probe", ["cesspool:2"], [], []⟩ true false = .ok out :=
  claim_C7_amended [((5 : Int), "PIR_Trigger")] smFix 0 ⟨1, 5, "probe", ["cesspool:2"], [], []⟩
    true false (by decide)
    (by
      intro t ht idx hidx
      simp only [List.mem_singleton] at ht
      subst ht
      rw [show cesspoolIndex "cesspool:2" = some 2 from rfl] at hidx
      injection hidx with hidx
      subst hidx
      decide)

/-- C8: `read_state` returns `some b` iff the board file is available,
the raw read yields exactly the byte `b`, and `b` is in the fixed
allow-list `{0x5a, 0x4b, 0x1e, 0x0f}`; and `read_state` never changes
the board's `last_value`. -/
theorem claim_C8 (sb : SensorBoardSt) (openOk : Bool) (r : ReadOutcome) (b : Nat) :
    ((read_state sb openOk r).2 = some b ↔
      (sb.fileOpen || openOk) = true ∧ r = ReadOutcome.byte b ∧
      (b == 0x5a || b == 0x4b || b == 0x1e || b == 0x0f) = true) ∧
    (read_state sb openOk r).1.last_value = sb.last_value := by
  obtain ⟨lv, fo⟩ := sb
  constructor
  · cases r with
    | ioError => cases fo <;> cases openOk <;> simp [read_state]
    | byte b2 =>
      cases fo <;> cases openOk <;>
        (by_cases hall : (b2 == 0x5a || b2 == 0x4b || b2 == 0x1e || b2 == 0x0f) = true <;>
         by_cases hb : b2 = b <;>
         first
         | (subst hb
            simp [read_state, hall])
         | simp [read_state, hall, hb])
  · cases r <;> cases fo <;> cases openOk <;>
      (simp only [read_state]
       repeat' split
       all_goals rfl)

/-- C10: applying an external `TurnOff` task to a relay whose output bit
is already off (bit set) leaves the relay and the board entirely
unchanged — bit, `override_mode`, `stop_after`, `last_toggled` — and
emits no counter intent. -/
theorem claim_C10 (now i : Nat) (dur : Option Nat) (r : Relay) (rb : RelayBoardState)
    (hoff : (baseState rb).testBit i = true) :
    applyTask now i TaskCommand.TurnOff dur r rb = (r, rb, false) := by
  simp only [applyTask, hoff, Bool.not_true, Bool.false_eq_true, if_false]

/-- C10 (witness): a `TurnOff` task on an off relay in override mode is
a complete no-op. -/
theorem claim_C10_witness :
    applyTask 5000 0 TaskCommand.TurnOff none { rFix with override_mode := true }
      ⟨none, some 0xff, true⟩ =
      ({ rFix with override_mode := true }, ⟨none, some 0xff, true⟩, false) :=
  claim_C10 5000 0 none { rFix with override_mode := true } ⟨none, some 0xff, true⟩ (by decide)

/-- C9: for non-initial night-time `PIR_Trigger` on-events carrying
`bedroom_enable` (and not `bedroom_disable`): starting from
`bedroom_mode = off`, a run of `n + 1` such events yields hook results
`true, false, false, …` — the first enables the mode and is allowed
through, every later one is suppressed — and leaves the mode on; and
any event carrying `bedroom_disable` (and no enable/wicket/cesspool
tag interference) sets the mode off again and falls through. -/
theorem claim_C9 (sm : SM) (now : Nat) (name : String) (tags tags2 : List String)
    (id : Int) (n : Nat)
    (h1 : "bedroom_enable" ∈ tags) (h2 : "bedroom_disable" ∉ tags)
    (hm : sm.bedroom_mode = false)
    (g1 : "bedroom_enable" ∉ tags2) (g2 : "bedroom_disable" ∈ tags2)
    (g3 : tags2.find? (fun t => beginsWith t "wicket_gate") = none)
    (g4 : ∀ t ∈ tags2, beginsWith t "cesspool" = false) :
    (bedroomSeq now name tags id (n + 1) sm).1 = true :: List.replicate n false ∧
    ((bedroomSeq now name tags id (n + 1) sm).2).bedroom_mode = true ∧
    (∀ sm2 : SM, ∃ effs, sensor_hook sm2 now "PIR_Trigger" name true tags2 true false id =
      .ok ({ sm2 with bedroom_mode := false }, [], effs, true)) := by
  have hstep := bedroomStep_enable_off sm now name tags id h1 h2 hm
  have hfix := bedroomSeq_fixed now name tags id h1 h2 n { sm with bedroom_mode := true } rfl
  refine ⟨?_, ?_, ?_⟩
  · simp only [bedroomSeq, hstep, hfix]
  · simp only [bedroomSeq, hstep, hfix]
  · intro sm2
    have hb : bedroomPhase sm2 "PIR_Trigger" true true false tags2 = (false, none) := by
      unfold bedroomPhase
      rw [if_pos (by simp)]
      exact bedroomScan_of_disable _ _ g1 g2
    have hw : wicketArm { sm2 with bedroom_mode := false } true false tags2 = none := by
      simp [wicketArm, g3]
    obtain ⟨effs, hgen⟩ := genericPhase_no_cesspool { sm2 with bedroom_mode := false }
      name true false id tags2 g4
    refine ⟨effs, ?_⟩
    simp only [sensor_hook, hb, hw]
    exact hgen

/-- C9 (witness): three enable events from mode-off give results
`[true, false, false]`. -/
theorem claim_C9_witness :
    (bedroomSeq 0 "pir" ["bedroom_enable"] 1 3 smFix).1 = true :: List.replicate 2 false :=
  (claim_C9 smFix 0 "pir" ["bedroom_enable"] ["bedroom_disable"] 1 2 (by decide) (by decide)
    rfl (by decide) (by decide) (by decide) (by decide)).1

end Hard
